import Mathlib

/-!
Verification development for the dds_glossary SKOS ingestion and query service.

The Python sources are shallowly embedded: Python dictionaries keyed by the
optional xml:lang attribute become association lists over `Option String`
built with dict-style upsert, XML elements become records of their relevant
attributes and children, and the fallible acquisition/persistence steps of the
orchestrator become an explicit `Except`-valued parameter.  Functions keep the
names of the Python functions they embed (model.py, xml.py, services.py,
database.py, exceptions.py, and the alembic migration).
-/

namespace DDSGlossary

/-- Language key of a label dictionary: the value of the xml:lang attribute,
or `none` when the attribute is absent (Python stores the key `None`). -/
abbrev LangKey := Option String

/-- First binding for key `k` in an association list (dict lookup). -/
def dictGet {β : Type} (d : List (LangKey × β)) (k : LangKey) : Option β :=
  (d.find? (fun p => p.1 == k)).map (fun p => p.2)

/-- Python dict assignment `d[k] = v`: overwrite in place, else append. -/
def dictUpsert {β : Type} : List (LangKey × β) → LangKey → β → List (LangKey × β)
  | [], k, v => [(k, v)]
  | (k', v') :: rest, k, v =>
      if k' == k then (k, v) :: rest else (k', v') :: dictUpsert rest k v

/-- Python dict comprehension over a list of key/value pairs (later pairs
overwrite earlier ones, first-insertion position is kept). -/
def dictOfPairs {β : Type} (ps : List (LangKey × β)) : List (LangKey × β) :=
  ps.foldl (fun d p => dictUpsert d p.1 p.2) []

/-- Python `defaultdict(list)` append `d[k].append(v)`. -/
def dictAppend : List (LangKey × List String) → LangKey → String → List (LangKey × List String)
  | [], k, v => [(k, [v])]
  | (k', vs) :: rest, k, v =>
      if k' == k then (k', vs ++ [v]) :: rest else (k', vs) :: dictAppend rest k v

/-- Build a `defaultdict(list)` by appending each pair in order. -/
def dictOfPairsLists (ps : List (LangKey × String)) : List (LangKey × List String) :=
  ps.foldl (fun d p => dictAppend d p.1 p.2) []

/-- model.py `Base.get_in_language`: `attribute.get(lang, attribute.get("en", ""))`. -/
def Base.get_in_language (attr : List (LangKey × String)) (lang : String := "en") : String :=
  (dictGet attr (some lang)).getD ((dictGet attr (some "en")).getD "")

/-- model.py `Base.get_in_language_list`: `attribute.get(lang, attribute.get("en", []))`. -/
def Base.get_in_language_list (attr : List (LangKey × List String)) (lang : String := "en") :
    List String :=
  (dictGet attr (some lang)).getD ((dictGet attr (some "en")).getD [])

/-- C6: For every label dictionary L and language code lang,
`get_in_language` returns the entry for `lang` when present, else the entry
for "en" when present, else the empty string; `get_in_language_list` behaves
identically with the empty list as final default; and for every `lang` that is
not a key of L, the lookup coincides with the lookup at "en". -/
theorem get_in_language_fallback_spec (L : List (LangKey × String))
    (M : List (LangKey × List String)) (lang : String) :
    (∀ v, dictGet L (some lang) = some v → Base.get_in_language L lang = v)
    ∧ (dictGet L (some lang) = none →
        ∀ v, dictGet L (some "en") = some v → Base.get_in_language L lang = v)
    ∧ (dictGet L (some lang) = none → dictGet L (some "en") = none →
        Base.get_in_language L lang = "")
    ∧ (∀ vs, dictGet M (some lang) = some vs → Base.get_in_language_list M lang = vs)
    ∧ (dictGet M (some lang) = none →
        ∀ vs, dictGet M (some "en") = some vs → Base.get_in_language_list M lang = vs)
    ∧ (dictGet M (some lang) = none → dictGet M (some "en") = none →
        Base.get_in_language_list M lang = [])
    ∧ (dictGet L (some lang) = none →
        Base.get_in_language L lang = Base.get_in_language L "en")
    ∧ (dictGet M (some lang) = none →
        Base.get_in_language_list M lang = Base.get_in_language_list M "en") := by
  refine ⟨?_, ?_, ?_, ?_, ?_, ?_, ?_, ?_⟩
  · intro v hv
    simp [Base.get_in_language, hv]
  · intro h v hv
    simp [Base.get_in_language, h, hv]
  · intro h h'
    simp [Base.get_in_language, h, h']
  · intro vs hvs
    simp [Base.get_in_language_list, hvs]
  · intro h vs hvs
    simp [Base.get_in_language_list, h, hvs]
  · intro h h'
    simp [Base.get_in_language_list, h, h']
  · intro h
    cases hen : dictGet L (some "en") <;>
      simp [Base.get_in_language, h, hen]
  · intro h
    cases hen : dictGet M (some "en") <;>
      simp [Base.get_in_language_list, h, hen]

/-- Witness for C6: a dictionary with only an English entry, looked up in
French, falls back to the English value. -/
theorem get_in_language_fallback_spec_witness :
    Base.get_in_language [(some "en", "water")] "fr" = "water"
    ∧ Base.get_in_language_list [(some "en", ["aqua"])] "fr" = ["aqua"] := by
  have h := get_in_language_fallback_spec
    [(some "en", "water")] [(some "en", ["aqua"])] "fr"
  exact ⟨h.2.1 (by decide) "water" (by decide),
    h.2.2.2.2.1 (by decide) ["aqua"] (by decide)⟩

/-- A child of a SKOS XML element, reduced to the attributes the parser reads:
its namespaced tag, its optional xml:lang attribute, its text content, and its
optional rdf:resource attribute. -/
structure XmlChild where
  tag : String
  lang : Option String := none
  text : String := ""
  resource : Option String := none
deriving DecidableEq

/-- A SKOS XML element: its rdf:about attribute (with "" for absent, as in
`get_element_attribute`) and its list of children in document order. -/
structure XmlElement where
  about : String := ""
  children : List XmlChild := []
deriving DecidableEq

/-- xml.py `get_element_attribute(sub_element, "resource", default_value="")`. -/
def childResource (c : XmlChild) : String :=
  c.resource.getD ""

/-- xml.py `get_sub_element_attributes(element, tag, "resource")`: the
rdf:resource of every child matching `tag`, in document order. -/
def get_sub_element_attributes (e : XmlElement) (tag : String) : List String :=
  (e.children.filter (fun c => c.tag == tag)).map childResource

/-- xml.py `get_sub_element_as_str`: text of the first child matching `tag`,
or "" when no child matches. -/
def get_sub_element_as_str (e : XmlElement) (tag : String) : String :=
  match e.children.find? (fun c => c.tag == tag) with
  | some c => c.text
  | none => ""

/-- xml.py `get_sub_elements_as_dict`: dict comprehension keying each matching
child's text by its xml:lang attribute (later children overwrite earlier ones
for a repeated language). -/
def get_sub_elements_as_dict (e : XmlElement) (tag : String) : List (LangKey × String) :=
  dictOfPairs ((e.children.filter (fun c => c.tag == tag)).map (fun c => (c.lang, c.text)))

/-- xml.py `get_sub_elements_as_dict_of_lists`: defaultdict(list) appending
each matching child's text under its xml:lang attribute. -/
def get_sub_elements_as_dict_of_lists (e : XmlElement) (tag : String) :
    List (LangKey × List String) :=
  dictOfPairsLists ((e.children.filter (fun c => c.tag == tag)).map (fun c => (c.lang, c.text)))

theorem dictGet_cons {β : Type} (k₀ : LangKey) (v₀ : β) (rest : List (LangKey × β))
    (k : LangKey) :
    dictGet ((k₀, v₀) :: rest) k = if k₀ = k then some v₀ else dictGet rest k := by
  by_cases h : k₀ = k
  · subst h
    simp [dictGet, List.find?]
  · have hb : (k₀ == k) = false := by simp [h]
    simp [dictGet, List.find?, hb, h]

theorem dictGet_dictUpsert_self {β : Type} (d : List (LangKey × β)) (k : LangKey) (v : β) :
    dictGet (dictUpsert d k v) k = some v := by
  induction d with
  | nil => simp [dictUpsert, dictGet_cons]
  | cons p rest ih =>
      obtain ⟨k', v'⟩ := p
      by_cases h : k' = k
      · simp [dictUpsert, h, dictGet_cons]
      · simp [dictUpsert, h, dictGet_cons, ih]

theorem dictGet_dictUpsert_ne {β : Type} (d : List (LangKey × β)) (k k' : LangKey) (v : β)
    (h : k' ≠ k) : dictGet (dictUpsert d k v) k' = dictGet d k' := by
  have hks : k ≠ k' := Ne.symm h
  induction d with
  | nil => simp [dictUpsert, dictGet_cons, hks]
  | cons p rest ih =>
      obtain ⟨k₀, v₀⟩ := p
      by_cases h₀ : k₀ = k
      · subst h₀
        simp [dictUpsert, dictGet_cons, hks]
      · by_cases h₁ : k₀ = k'
        · simp [dictUpsert, h₀, dictGet_cons, h₁, h]
        · simp [dictUpsert, h₀, dictGet_cons, h₁, ih]

theorem dictGet_foldl_upsert_mem {β : Type} (ps : List (LangKey × β)) :
    ∀ (acc : List (LangKey × β)) (k : LangKey) (v : β),
      dictGet (ps.foldl (fun d p => dictUpsert d p.1 p.2) acc) k = some v →
      (k, v) ∈ ps ∨ dictGet acc k = some v := by
  induction ps with
  | nil => intro acc k v h; exact Or.inr h
  | cons p rest ih =>
      intro acc k v h
      obtain ⟨k₁, v₁⟩ := p
      rcases ih (dictUpsert acc k₁ v₁) k v h with hrest | hacc
      · exact Or.inl (List.mem_cons_of_mem _ hrest)
      · by_cases hk : k = k₁
        · subst hk
          rw [dictGet_dictUpsert_self] at hacc
          injection hacc with hv
          subst hv
          exact Or.inl (List.mem_cons_self _ _)
        · rw [dictGet_dictUpsert_ne _ _ _ _ hk] at hacc
          exact Or.inr hacc

theorem dictGet_foldl_upsert_isSome {β : Type} (ps : List (LangKey × β)) :
    ∀ (acc : List (LangKey × β)) (k : LangKey),
      ((∃ v, (k, v) ∈ ps) ∨ (dictGet acc k).isSome) →
      (dictGet (ps.foldl (fun d p => dictUpsert d p.1 p.2) acc) k).isSome := by
  induction ps with
  | nil =>
      intro acc k h
      rcases h with ⟨v, hv⟩ | h
      · simp at hv
      · exact h
  | cons p rest ih =>
      intro acc k h
      obtain ⟨k₁, v₁⟩ := p
      apply ih (dictUpsert acc k₁ v₁) k
      rcases h with ⟨v, hv⟩ | h
      · rcases List.mem_cons.mp hv with hp | hrest
        · right
          have hk : k = k₁ := congrArg Prod.fst hp
          rw [hk, dictGet_dictUpsert_self]
          rfl
        · exact Or.inl ⟨v, hrest⟩
      · by_cases hk : k = k₁
        · right
          rw [hk, dictGet_dictUpsert_self]
          rfl
        · right
          rwa [dictGet_dictUpsert_ne _ _ _ _ hk]

theorem dictGet_foldl_upsert_none {β : Type} (ps : List (LangKey × β)) :
    ∀ (acc : List (LangKey × β)) (k : LangKey),
      (∀ v, (k, v) ∉ ps) → dictGet acc k = none →
      dictGet (ps.foldl (fun d p => dictUpsert d p.1 p.2) acc) k = none := by
  induction ps with
  | nil => intro acc k _ h; exact h
  | cons p rest ih =>
      intro acc k hmem hacc
      obtain ⟨k₁, v₁⟩ := p
      apply ih (dictUpsert acc k₁ v₁) k
      · intro v hv
        exact hmem v (List.mem_cons_of_mem _ hv)
      · have hk : k ≠ k₁ := by
          intro hk
          exact hmem v₁ (by rw [hk]; exact List.mem_cons_self _ _)
        rw [dictGet_dictUpsert_ne _ _ _ _ hk]
        exact hacc

theorem dictGet_dictAppend_self (d : List (LangKey × List String)) (k : LangKey) (v : String) :
    dictGet (dictAppend d k v) k = some ((dictGet d k).getD [] ++ [v]) := by
  induction d with
  | nil => simp [dictAppend, dictGet_cons, dictGet]
  | cons p rest ih =>
      obtain ⟨k₀, vs₀⟩ := p
      by_cases h : k₀ = k
      · simp [dictAppend, h, dictGet_cons]
      · simp [dictAppend, h, dictGet_cons, ih]

theorem dictGet_dictAppend_ne (d : List (LangKey × List String)) (k k' : LangKey) (v : String)
    (h : k' ≠ k) : dictGet (dictAppend d k v) k' = dictGet d k' := by
  have hks : k ≠ k' := Ne.symm h
  induction d with
  | nil => simp [dictAppend, dictGet_cons, hks]
  | cons p rest ih =>
      obtain ⟨k₀, vs₀⟩ := p
      by_cases h₀ : k₀ = k
      · subst h₀
        simp [dictAppend, dictGet_cons, hks]
      · by_cases h₁ : k₀ = k'
        · simp [dictAppend, h₀, dictGet_cons, h₁, h]
        · simp [dictAppend, h₀, dictGet_cons, h₁, ih]

theorem dictGet_foldl_append_mem (ps : List (LangKey × String)) :
    ∀ (acc : List (LangKey × List String)) (k : LangKey) (vs : List String),
      dictGet (ps.foldl (fun d p => dictAppend d p.1 p.2) acc) k = some vs →
      ∀ v ∈ vs, (k, v) ∈ ps ∨ ∃ vs₀, dictGet acc k = some vs₀ ∧ v ∈ vs₀ := by
  induction ps with
  | nil =>
      intro acc k vs h v hv
      exact Or.inr ⟨vs, h, hv⟩
  | cons p rest ih =>
      intro acc k vs h v hv
      obtain ⟨k₁, v₁⟩ := p
      rcases ih (dictAppend acc k₁ v₁) k vs h v hv with hmem | ⟨vs₀, hvs₀, hv₀⟩
      · exact Or.inl (List.mem_cons_of_mem _ hmem)
      · by_cases hk : k = k₁
        · subst hk
          rw [dictGet_dictAppend_self] at hvs₀
          injection hvs₀ with hvs₀
          subst hvs₀
          rcases List.mem_append.mp hv₀ with hleft | hright
          · cases hacc : dictGet acc k with
            | none => rw [hacc] at hleft; simp at hleft
            | some l =>
                rw [hacc] at hleft
                exact Or.inr ⟨l, rfl, hleft⟩
          · have : v = v₁ := by simpa using hright
            subst this
            exact Or.inl (List.mem_cons_self _ _)
        · rw [dictGet_dictAppend_ne _ _ _ _ hk] at hvs₀
          exact Or.inr ⟨vs₀, hvs₀, hv₀⟩

theorem dictGet_foldl_append_isSome (ps : List (LangKey × String)) :
    ∀ (acc : List (LangKey × List String)) (k : LangKey),
      ((∃ v, (k, v) ∈ ps) ∨ (dictGet acc k).isSome) →
      (dictGet (ps.foldl (fun d p => dictAppend d p.1 p.2) acc) k).isSome := by
  induction ps with
  | nil =>
      intro acc k h
      rcases h with ⟨v, hv⟩ | h
      · simp at hv
      · exact h
  | cons p rest ih =>
      intro acc k h
      obtain ⟨k₁, v₁⟩ := p
      apply ih (dictAppend acc k₁ v₁) k
      rcases h with ⟨v, hv⟩ | h
      · rcases List.mem_cons.mp hv with hp | hrest
        · right
          have hk : k = k₁ := congrArg Prod.fst hp
          rw [hk, dictGet_dictAppend_self]
          rfl
        · exact Or.inl ⟨v, hrest⟩
      · by_cases hk : k = k₁
        · right
          rw [hk, dictGet_dictAppend_self]
          rfl
        · right
          rwa [dictGet_dictAppend_ne _ _ _ _ hk]

theorem dictGet_foldl_append_none (ps : List (LangKey × String)) :
    ∀ (acc : List (LangKey × List String)) (k : LangKey),
      (∀ v, (k, v) ∉ ps) → dictGet acc k = none →
      dictGet (ps.foldl (fun d p => dictAppend d p.1 p.2) acc) k = none := by
  induction ps with
  | nil => intro acc k _ h; exact h
  | cons p rest ih =>
      intro acc k hmem hacc
      obtain ⟨k₁, v₁⟩ := p
      apply ih (dictAppend acc k₁ v₁) k
      · intro v hv
        exact hmem v (List.mem_cons_of_mem _ hv)
      · have hk : k ≠ k₁ := by
          intro hk
          exact hmem v₁ (by rw [hk]; exact List.mem_cons_self _ _)
        rw [dictGet_dictAppend_ne _ _ _ _ hk]
        exact hacc

theorem mem_label_pairs (e : XmlElement) (tag : String) (k : LangKey) (v : String) :
    (k, v) ∈ (e.children.filter (fun c => c.tag == tag)).map (fun c => (c.lang, c.text)) ↔
      ∃ c ∈ e.children, c.tag = tag ∧ c.lang = k ∧ c.text = v := by
  simp only [List.mem_map, List.mem_filter, beq_iff_eq, Prod.mk.injEq]
  constructor
  · rintro ⟨c, ⟨hc, htag⟩, hk, hv⟩
    exact ⟨c, hc, htag, hk, hv⟩
  · rintro ⟨c, hc, htag, hk, hv⟩
    exact ⟨c, ⟨hc, htag⟩, hk, hv⟩

/-- C10: A prefLabel or altLabel child with no xml:lang attribute is stored by
`get_sub_elements_as_dict` (and `get_sub_elements_as_dict_of_lists`) under the
key `none` rather than under "" or "en": every stored binding comes from a
child carrying exactly that language key, a dictionary whose matching children
are all unlanguaged answers every string-language lookup with the empty
string or empty list, and any non-empty `get_in_language` answer originates
from a child tagged with the requested language or with "en". -/
theorem unlanguaged_labels_under_none_key (e : XmlElement) (tag : String) :
    ((∃ c ∈ e.children, c.tag = tag ∧ c.lang = none) →
      ∃ v, dictGet (get_sub_elements_as_dict e tag) none = some v
        ∧ ∃ c ∈ e.children, c.tag = tag ∧ c.lang = none ∧ c.text = v)
    ∧ (∀ k v, dictGet (get_sub_elements_as_dict e tag) k = some v →
        ∃ c ∈ e.children, c.tag = tag ∧ c.lang = k ∧ c.text = v)
    ∧ (∀ k vs, dictGet (get_sub_elements_as_dict_of_lists e tag) k = some vs →
        ∀ v ∈ vs, ∃ c ∈ e.children, c.tag = tag ∧ c.lang = k ∧ c.text = v)
    ∧ ((∀ c ∈ e.children, c.tag = tag → c.lang = none) →
        ∀ lang : String,
          Base.get_in_language (get_sub_elements_as_dict e tag) lang = ""
          ∧ Base.get_in_language_list (get_sub_elements_as_dict_of_lists e tag) lang = [])
    ∧ (∀ (lang v : String),
        Base.get_in_language (get_sub_elements_as_dict e tag) lang = v →
        v = "" ∨ ∃ c ∈ e.children, c.tag = tag
          ∧ (c.lang = some lang ∨ c.lang = some "en") ∧ c.text = v) := by
  have hb : ∀ k v, dictGet (get_sub_elements_as_dict e tag) k = some v →
      ∃ c ∈ e.children, c.tag = tag ∧ c.lang = k ∧ c.text = v := by
    intro k v h
    simp only [get_sub_elements_as_dict, dictOfPairs] at h
    rcases dictGet_foldl_upsert_mem _ [] k v h with hmem | habs
    · exact (mem_label_pairs e tag k v).mp hmem
    · simp [dictGet] at habs
  have hl : ∀ k vs, dictGet (get_sub_elements_as_dict_of_lists e tag) k = some vs →
      ∀ v ∈ vs, ∃ c ∈ e.children, c.tag = tag ∧ c.lang = k ∧ c.text = v := by
    intro k vs h v hv
    simp only [get_sub_elements_as_dict_of_lists, dictOfPairsLists] at h
    rcases dictGet_foldl_append_mem _ [] k vs h v hv with hmem | ⟨vs₀, habs, _⟩
    · exact (mem_label_pairs e tag k v).mp hmem
    · simp [dictGet] at habs
  have hnone_dict : (∀ c ∈ e.children, c.tag = tag → c.lang = none) → ∀ s : String,
      dictGet (get_sub_elements_as_dict e tag) (some s) = none := by
    intro hall s
    simp only [get_sub_elements_as_dict, dictOfPairs]
    apply dictGet_foldl_upsert_none
    · intro v hv
      rcases (mem_label_pairs e tag (some s) v).mp hv with ⟨c, hc, htag, hlang, _⟩
      rw [hall c hc htag] at hlang
      simp at hlang
    · rfl
  have hnone_lists : (∀ c ∈ e.children, c.tag = tag → c.lang = none) → ∀ s : String,
      dictGet (get_sub_elements_as_dict_of_lists e tag) (some s) = none := by
    intro hall s
    simp only [get_sub_elements_as_dict_of_lists, dictOfPairsLists]
    apply dictGet_foldl_append_none
    · intro v hv
      rcases (mem_label_pairs e tag (some s) v).mp hv with ⟨c, hc, htag, hlang, _⟩
      rw [hall c hc htag] at hlang
      simp at hlang
    · rfl
  refine ⟨?_, hb, hl, ?_, ?_⟩
  · rintro ⟨c, hc, htag, hlang⟩
    have hmem : ((none : LangKey), c.text) ∈
        (e.children.filter (fun c => c.tag == tag)).map (fun c => (c.lang, c.text)) :=
      (mem_label_pairs e tag none c.text).mpr ⟨c, hc, htag, hlang, rfl⟩
    have hsome : (dictGet (get_sub_elements_as_dict e tag) none).isSome := by
      simp only [get_sub_elements_as_dict, dictOfPairs]
      exact dictGet_foldl_upsert_isSome _ [] none (Or.inl ⟨c.text, hmem⟩)
    obtain ⟨v, hv⟩ := Option.isSome_iff_exists.mp hsome
    exact ⟨v, hv, hb none v hv⟩
  · intro hall lang
    constructor
    · simp [Base.get_in_language, hnone_dict hall lang, hnone_dict hall "en"]
    · simp [Base.get_in_language_list, hnone_lists hall lang, hnone_lists hall "en"]
  · intro lang v hv
    cases h1 : dictGet (get_sub_elements_as_dict e tag) (some lang) with
    | some w =>
        right
        have hw : w = v := by
          rw [Base.get_in_language, h1] at hv
          simpa using hv
        obtain ⟨c, hc, htag, hlang, htext⟩ := hb (some lang) w h1
        exact ⟨c, hc, htag, Or.inl hlang, htext.trans hw⟩
    | none =>
        cases h2 : dictGet (get_sub_elements_as_dict e tag) (some "en") with
        | some w =>
            right
            have hw : w = v := by
              rw [Base.get_in_language, h1, h2] at hv
              simpa using hv
            obtain ⟨c, hc, htag, hlang, htext⟩ := hb (some "en") w h2
            exact ⟨c, hc, htag, Or.inr hlang, htext.trans hw⟩
        | none =>
            left
            rw [Base.get_in_language, h1, h2] at hv
            simpa using hv.symm

/-- Witness for C10: a single prefLabel child with no xml:lang attribute is
stored under the key `none`, and every string-language lookup on the resulting
dictionaries returns "" or []. -/
theorem unlanguaged_labels_under_none_key_witness :
    (∃ v, dictGet
        (get_sub_elements_as_dict ⟨"", [⟨"core:prefLabel", none, "Water", none⟩]⟩
          "core:prefLabel") none = some v
      ∧ ∃ c ∈ [(⟨"core:prefLabel", none, "Water", none⟩ : XmlChild)],
          c.tag = "core:prefLabel" ∧ c.lang = none ∧ c.text = v)
    ∧ Base.get_in_language
        (get_sub_elements_as_dict ⟨"", [⟨"core:prefLabel", none, "Water", none⟩]⟩
          "core:prefLabel") "en" = ""
    ∧ Base.get_in_language_list
        (get_sub_elements_as_dict_of_lists ⟨"", [⟨"core:prefLabel", none, "Water", none⟩]⟩
          "core:prefLabel") "fr" = [] := by
  have h := unlanguaged_labels_under_none_key
    ⟨"", [⟨"core:prefLabel", none, "Water", none⟩]⟩ "core:prefLabel"
  exact ⟨h.1 ⟨⟨"core:prefLabel", none, "Water", none⟩, by simp, rfl, rfl⟩,
    (h.2.2.2.1 (by simp) "en").1,
    (h.2.2.2.1 (by simp) "fr").2⟩

/-- enums.py `MemberType`. -/
inductive MemberType where
  | collection_member
  | concept
  | collection
deriving DecidableEq

/-- enums.py `SemanticRelationType`, in declaration order. -/
inductive SemanticRelationType where
  | broader
  | narrower
  | related
  | broaderTransitive
  | narrowerTransitive
deriving DecidableEq

/-- The string value of each SemanticRelationType enum member. -/
def SemanticRelationType.value : SemanticRelationType → String
  | .broader => "broader"
  | .narrower => "narrower"
  | .related => "related"
  | .broaderTransitive => "broaderTransitive"
  | .narrowerTransitive => "narrowerTransitive"

/-- Iteration order of `for relation_type in SemanticRelationType`: the enum
declaration order. -/
def semanticRelationTypeList : List SemanticRelationType :=
  [.broader, .narrower, .related, .broaderTransitive, .narrowerTransitive]

/-- model.py `ConceptScheme` columns (the Python column `notation` is a Lean
keyword and is embedded as `notationStr`). -/
structure ConceptScheme where
  iri : String
  notationStr : String
  scopeNote : String
  prefLabels : List (LangKey × String)
deriving DecidableEq

/-- model.py `ConceptScheme.from_xml_element`. -/
def ConceptScheme.from_xml_element (e : XmlElement) : ConceptScheme :=
  { iri := e.about
    notationStr := get_sub_element_as_str e "core:notation"
    scopeNote := get_sub_element_as_str e "core:scopeNote"
    prefLabels := get_sub_elements_as_dict e "core:prefLabel" }

/-- model.py `Member` base columns of the `collection_members` table. -/
structure Member where
  iri : String
  notationStr : String
  prefLabels : List (LangKey × String)
  member_type : MemberType
deriving DecidableEq

/-- model.py `Member.get_concept_schemes`: the concept schemes of the batch
whose IRI appears among the element's inScheme resource references. -/
def Member.get_concept_schemes (e : XmlElement) (concept_schemes : List ConceptScheme) :
    List ConceptScheme :=
  let scheme_iris := get_sub_element_attributes e "core:inScheme"
  concept_schemes.filter (fun concept_scheme => scheme_iris.contains concept_scheme.iri)

/-- model.py `Collection`: member variant carrying the captured `member_iris`
and the resolved `members` relationship. -/
structure Collection where
  iri : String
  notationStr : String
  prefLabels : List (LangKey × String)
  concept_schemes : List ConceptScheme
  member_iris : List String
  members : List Member
deriving DecidableEq

/-- model.py `Collection.from_xml_element` (members not yet resolved). -/
def Collection.from_xml_element (e : XmlElement) (concept_schemes : List ConceptScheme) :
    Collection :=
  { iri := e.about
    notationStr := get_sub_element_as_str e "core:notation"
    prefLabels := get_sub_elements_as_dict e "core:prefLabel"
    concept_schemes := Member.get_concept_schemes e concept_schemes
    member_iris := get_sub_element_attributes e "core:member"
    members := [] }

/-- model.py `Collection.resolve_members_from_xml`:
`self.members = [member for member in members if member.iri in self.member_iris]`. -/
def Collection.resolve_members_from_xml (c : Collection) (members : List Member) : Collection :=
  { c with members := members.filter (fun member => c.member_iris.contains member.iri) }

/-- model.py `Concept`: member variant with identifier, altLabels, scopeNotes. -/
structure Concept where
  iri : String
  identifier : String
  notationStr : String
  prefLabels : List (LangKey × String)
  altLabels : List (LangKey × List String)
  scopeNotes : List (LangKey × String)
  concept_schemes : List ConceptScheme
deriving DecidableEq

/-- model.py `Concept.from_xml_element`. -/
def Concept.from_xml_element (e : XmlElement) (concept_schemes : List ConceptScheme) : Concept :=
  { iri := e.about
    identifier := get_sub_element_as_str e "x_1.1:identifier"
    notationStr := get_sub_element_as_str e "core:notation"
    prefLabels := get_sub_elements_as_dict e "core:prefLabel"
    altLabels := get_sub_elements_as_dict_of_lists e "core:altLabel"
    scopeNotes := get_sub_elements_as_dict e "core:scopeNote"
    concept_schemes := Member.get_concept_schemes e concept_schemes }

/-- model.py `SemanticRelation` columns of the `semantic_relations` table. -/
structure SemanticRelation where
  type : SemanticRelationType
  source_concept_iri : String
  target_concept_iri : String
deriving DecidableEq

/-- The primary key of a `semantic_relations` row, as declared in model.py
(`primary_key=True` on the two IRI columns only) and created by the initial
alembic migration: the pair (source_concept_iri, target_concept_iri). -/
def SemanticRelation.primaryKey (r : SemanticRelation) : String × String :=
  (r.source_concept_iri, r.target_concept_iri)

/-- Counterexample for C3: two semantic relations with the same source and
target IRIs but different types (broader vs related) are NOT distinct rows
under the persisted schema: the type column is not part of the primary key,
so both carry the same primary key. -/
theorem semantic_relation_same_endpoints_different_type_share_key :
    (SemanticRelation.mk .broader "http://a" "http://b").type
      ≠ (SemanticRelation.mk .related "http://a" "http://b").type
    ∧ SemanticRelation.primaryKey (SemanticRelation.mk .broader "http://a" "http://b")
      = SemanticRelation.primaryKey (SemanticRelation.mk .related "http://a" "http://b") := by
  exact ⟨by decide, rfl⟩

/-- C3 (amended): A SemanticRelation's persisted identity is the composite
pair (source_concept_iri, target_concept_iri); the type column is not part of
the key, so two rows share an identity exactly when they agree on source and
target IRIs, and a duplicate of an identical (source, target) pair is the
same single edge. -/
theorem semantic_relation_primary_key_ignores_type (r₁ r₂ : SemanticRelation) :
    r₁.primaryKey = r₂.primaryKey ↔
      r₁.source_concept_iri = r₂.source_concept_iri
      ∧ r₁.target_concept_iri = r₂.target_concept_iri := by
  simp [SemanticRelation.primaryKey, Prod.ext_iff]

/-- C4: After the deferred resolution step (`resolve_members_from_xml`), a
Collection's members are exactly those available Members whose IRI appears in
the captured `member_iris` list; the selected set is invariant under
permutation of the available-member list (declaration order); member IRIs
matching no available Member are simply dropped, so resolution yields at most
as many members as are available, possibly zero, and never fails. -/
theorem resolve_members_filters_by_member_iris (c : Collection)
    (members members' : List Member) :
    (∀ m, m ∈ (c.resolve_members_from_xml members).members ↔
        m ∈ members ∧ c.member_iris.contains m.iri = true)
    ∧ (members.Perm members' →
        (c.resolve_members_from_xml members).members.Perm
          (c.resolve_members_from_xml members').members)
    ∧ ((∀ m ∈ members, c.member_iris.contains m.iri = false) →
        (c.resolve_members_from_xml members).members = [])
    ∧ (c.resolve_members_from_xml members).members.length ≤ members.length
    ∧ (c.resolve_members_from_xml members).member_iris = c.member_iris
    ∧ (c.resolve_members_from_xml members).iri = c.iri := by
  refine ⟨?_, ?_, ?_, ?_, rfl, rfl⟩
  · intro m
    simp [Collection.resolve_members_from_xml, List.mem_filter]
  · intro hperm
    exact hperm.filter _
  · intro hnone
    apply List.filter_eq_nil_iff.mpr
    intro m hm
    simpa using hnone m hm
  · exact List.length_filter_le _ _

/-- Witness for C4: a collection listing IRIs A and B resolves, against an
available-member list containing B, A and an unrelated C in any order, to
exactly the members with IRIs A and B, and an unknown IRI resolves to none. -/
theorem resolve_members_filters_by_member_iris_witness :
    (Collection.resolve_members_from_xml
        ⟨"http://coll", "", [], [], ["http://a", "http://b"], []⟩
        [⟨"http://b", "", [], .collection⟩, ⟨"http://c", "", [], .concept⟩,
          ⟨"http://a", "", [], .concept⟩]).members
      = [⟨"http://b", "", [], .collection⟩, ⟨"http://a", "", [], .concept⟩]
    ∧ (Collection.resolve_members_from_xml
        ⟨"http://coll", "", [], [], ["http://unknown"], []⟩
        [⟨"http://b", "", [], .collection⟩]).members = [] := by
  constructor
  · rfl
  · exact (resolve_members_filters_by_member_iris
      ⟨"http://coll", "", [], [], ["http://unknown"], []⟩
      [⟨"http://b", "", [], .collection⟩] []).2.2.1 (by decide)

/-- model.py `SemanticRelation.from_xml_element`: for each relation type in
enum order, one SemanticRelation per rdf:resource reference under the tag
`core:<type value>`, with the element's rdf:about as source. -/
def SemanticRelation.from_xml_element (e : XmlElement) : List SemanticRelation :=
  semanticRelationTypeList.flatMap (fun relation_type =>
    (get_sub_element_attributes e ("core:" ++ relation_type.value)).map
      (fun target_concept_iri =>
        { type := relation_type
          source_concept_iri := e.about
          target_concept_iri := target_concept_iri }))

/-- xml.py `semantic_relations_from_xml`, whose body is identical to
`SemanticRelation.from_xml_element` in model.py. -/
def semantic_relations_from_xml (e : XmlElement) : List SemanticRelation :=
  SemanticRelation.from_xml_element e

theorem filter_type_of_map (t t' : SemanticRelationType) (src : String)
    (targets : List String) :
    ((targets.map (fun tgt => SemanticRelation.mk t src tgt)).filter
        (fun r => r.type == t'))
      = if t = t' then targets.map (fun tgt => SemanticRelation.mk t src tgt) else [] := by
  induction targets with
  | nil => simp
  | cons x xs ih =>
      by_cases h : t = t'
      · subst h
        simp [ih]
      · simp [h, ih]

/-- C5: For every Concept XML element, the parser emits exactly one
SemanticRelation per resource reference under each of the five relation-type
tags: every emitted relation has the element's rdf:about as source; the
relations of type t are exactly one per reference under the tag for t, in
order, with that reference as target; hence k references under one tag yield
k relations of that type, and an element with no relation-type children
yields no relations at all. -/
theorem semantic_relations_per_reference (e : XmlElement) :
    (∀ r ∈ semantic_relations_from_xml e, r.source_concept_iri = e.about)
    ∧ (∀ t : SemanticRelationType,
        (semantic_relations_from_xml e).filter (fun r => r.type == t)
          = (get_sub_element_attributes e ("core:" ++ t.value)).map
              (fun target => SemanticRelation.mk t e.about target))
    ∧ (∀ t : SemanticRelationType,
        ((semantic_relations_from_xml e).filter (fun r => r.type == t)).length
          = (get_sub_element_attributes e ("core:" ++ t.value)).length)
    ∧ ((∀ c ∈ e.children, ∀ t : SemanticRelationType, c.tag ≠ "core:" ++ t.value) →
        semantic_relations_from_xml e = []) := by
  have h2 : ∀ t : SemanticRelationType,
      (semantic_relations_from_xml e).filter (fun r => r.type == t)
        = (get_sub_element_attributes e ("core:" ++ t.value)).map
            (fun target => SemanticRelation.mk t e.about target) := by
    intro t
    cases t <;>
      simp [semantic_relations_from_xml, SemanticRelation.from_xml_element,
        semanticRelationTypeList, filter_type_of_map, SemanticRelationType.value]
  refine ⟨?_, h2, ?_, ?_⟩
  · intro r hr
    simp only [semantic_relations_from_xml, SemanticRelation.from_xml_element,
      List.mem_flatMap, List.mem_map] at hr
    obtain ⟨t, _, tgt, _, hmk⟩ := hr
    rw [← hmk]
  · intro t
    rw [h2 t, List.length_map]
  · intro h
    have hrefs : ∀ t : SemanticRelationType,
        get_sub_element_attributes e ("core:" ++ t.value) = [] := by
      intro t
      have hfil : e.children.filter (fun c => c.tag == ("core:" ++ t.value)) = [] :=
        List.filter_eq_nil_iff.mpr (fun c hc => by simpa using h c hc t)
      simp [get_sub_element_attributes, hfil]
    simp [semantic_relations_from_xml, SemanticRelation.from_xml_element,
      semanticRelationTypeList, hrefs]

/-- Witness for C5: an element with three broader references and one related
reference yields exactly three broader relations and one related relation
and no narrower relation, and an element with only a prefLabel child yields
no relations. -/
theorem semantic_relations_per_reference_witness :
    ((semantic_relations_from_xml
        ⟨"http://s", [⟨"core:broader", none, "", some "http://t1"⟩,
          ⟨"core:broader", none, "", some "http://t2"⟩,
          ⟨"core:broader", none, "", some "http://t3"⟩,
          ⟨"core:related", none, "", some "http://r1"⟩]⟩).filter
        (fun r => r.type == SemanticRelationType.broader)).length = 3
    ∧ ((semantic_relations_from_xml
        ⟨"http://s", [⟨"core:broader", none, "", some "http://t1"⟩,
          ⟨"core:broader", none, "", some "http://t2"⟩,
          ⟨"core:broader", none, "", some "http://t3"⟩,
          ⟨"core:related", none, "", some "http://r1"⟩]⟩).filter
        (fun r => r.type == SemanticRelationType.related)).length = 1
    ∧ ((semantic_relations_from_xml
        ⟨"http://s", [⟨"core:broader", none, "", some "http://t1"⟩,
          ⟨"core:broader", none, "", some "http://t2"⟩,
          ⟨"core:broader", none, "", some "http://t3"⟩,
          ⟨"core:related", none, "", some "http://r1"⟩]⟩).filter
        (fun r => r.type == SemanticRelationType.narrower)).length = 0
    ∧ semantic_relations_from_xml ⟨"http://s2", [⟨"core:prefLabel", none, "x", none⟩]⟩
        = [] := by
  have h := semantic_relations_per_reference
    ⟨"http://s", [⟨"core:broader", none, "", some "http://t1"⟩,
      ⟨"core:broader", none, "", some "http://t2"⟩,
      ⟨"core:broader", none, "", some "http://t3"⟩,
      ⟨"core:related", none, "", some "http://r1"⟩]⟩
  have h0 := semantic_relations_per_reference
    ⟨"http://s2", [⟨"core:prefLabel", none, "x", none⟩]⟩
  refine ⟨(h.2.2.1 SemanticRelationType.broader).trans (by rfl),
    (h.2.2.1 SemanticRelationType.related).trans (by rfl),
    (h.2.2.1 SemanticRelationType.narrower).trans (by rfl),
    h0.2.2.2 ?_⟩
  intro c hc t
  have hceq : c = ⟨"core:prefLabel", none, "x", none⟩ := by simpa using hc
  subst hceq
  cases t <;> decide

/-- One parsed dataset document: the results of the three `root.findall`
calls in services.py `parse_dataset`, in document order. -/
structure XmlDocument where
  concept_scheme_elements : List XmlElement
  collection_elements : List XmlElement
  concept_elements : List XmlElement
deriving DecidableEq

/-- services.py `GlossaryController.parse_dataset`: concept schemes first,
then concepts and collections built against those schemes, then the semantic
relations of every concept element. -/
def parse_dataset (doc : XmlDocument) :
    List ConceptScheme × List Concept × List Collection × List SemanticRelation :=
  let concept_schemes := doc.concept_scheme_elements.map ConceptScheme.from_xml_element
  let concepts := doc.concept_elements.map
    (fun concept_element => Concept.from_xml_element concept_element concept_schemes)
  let collections := doc.collection_elements.map
    (fun collection_element => Collection.from_xml_element collection_element concept_schemes)
  let semantic_relations := doc.concept_elements.flatMap SemanticRelation.from_xml_element
  (concept_schemes, concepts, collections, semantic_relations)

/-- C9: In `parse_dataset`, a parsed Concept's (or Collection's)
concept_schemes list contains exactly those ConceptScheme objects parsed from
the same document whose IRI appears among the element's inScheme resource
references; an inScheme reference to an IRI not declared as a scheme of the
same document never contributes a scheme. -/
theorem parse_dataset_concept_schemes_from_same_document (doc : XmlDocument)
    (e : XmlElement) :
    (∀ cs, cs ∈ Member.get_concept_schemes e (parse_dataset doc).1 ↔
        cs ∈ (parse_dataset doc).1
          ∧ (get_sub_element_attributes e "core:inScheme").contains cs.iri = true)
    ∧ (e ∈ doc.concept_elements →
        Concept.from_xml_element e (parse_dataset doc).1 ∈ (parse_dataset doc).2.1
        ∧ (Concept.from_xml_element e (parse_dataset doc).1).concept_schemes
            = Member.get_concept_schemes e (parse_dataset doc).1)
    ∧ (e ∈ doc.collection_elements →
        Collection.from_xml_element e (parse_dataset doc).1 ∈ (parse_dataset doc).2.2.1
        ∧ (Collection.from_xml_element e (parse_dataset doc).1).concept_schemes
            = Member.get_concept_schemes e (parse_dataset doc).1)
    ∧ (∀ iri, (∀ s ∈ (parse_dataset doc).1, s.iri ≠ iri) →
        ∀ cs ∈ Member.get_concept_schemes e (parse_dataset doc).1, cs.iri ≠ iri) := by
  refine ⟨?_, ?_, ?_, ?_⟩
  · intro cs
    simp [Member.get_concept_schemes, List.mem_filter]
  · intro he
    exact ⟨by simpa [parse_dataset] using List.mem_map_of_mem _ he, rfl⟩
  · intro he
    exact ⟨by simpa [parse_dataset] using List.mem_map_of_mem _ he, rfl⟩
  · intro iri hall cs hcs
    have hmem : cs ∈ (parse_dataset doc).1 :=
      (List.mem_filter.mp hcs).1
    exact hall cs hmem

/-- Witness for C9: a document declaring one scheme and one concept element
referencing both that scheme and an external scheme IRI parses the concept
into the declared scheme only, and no parsed scheme carries the external
IRI. -/
theorem parse_dataset_concept_schemes_from_same_document_witness :
    (Concept.from_xml_element
        ⟨"http://c1", [⟨"core:inScheme", none, "", some "http://scheme1"⟩,
          ⟨"core:inScheme", none, "", some "http://external"⟩]⟩
        (parse_dataset ⟨[⟨"http://scheme1", []⟩], [],
          [⟨"http://c1", [⟨"core:inScheme", none, "", some "http://scheme1"⟩,
            ⟨"core:inScheme", none, "", some "http://external"⟩]⟩]⟩).1
      ∈ (parse_dataset ⟨[⟨"http://scheme1", []⟩], [],
          [⟨"http://c1", [⟨"core:inScheme", none, "", some "http://scheme1"⟩,
            ⟨"core:inScheme", none, "", some "http://external"⟩]⟩]⟩).2.1)
    ∧ (∀ cs ∈ Member.get_concept_schemes
        ⟨"http://c1", [⟨"core:inScheme", none, "", some "http://scheme1"⟩,
          ⟨"core:inScheme", none, "", some "http://external"⟩]⟩
        (parse_dataset ⟨[⟨"http://scheme1", []⟩], [],
          [⟨"http://c1", [⟨"core:inScheme", none, "", some "http://scheme1"⟩,
            ⟨"core:inScheme", none, "", some "http://external"⟩]⟩]⟩).1,
        cs.iri ≠ "http://external") := by
  have h := parse_dataset_concept_schemes_from_same_document
    ⟨[⟨"http://scheme1", []⟩], [],
      [⟨"http://c1", [⟨"core:inScheme", none, "", some "http://scheme1"⟩,
        ⟨"core:inScheme", none, "", some "http://external"⟩]⟩]⟩
    ⟨"http://c1", [⟨"core:inScheme", none, "", some "http://scheme1"⟩,
      ⟨"core:inScheme", none, "", some "http://external"⟩]⟩
  exact ⟨(h.2.1 (by simp)).1, h.2.2.2 "http://external" (by decide)⟩

/-- model.py `Dataset`: name and URL of a configured dataset. -/
structure Dataset where
  name : String
  url : String
deriving DecidableEq

/-- model.py `FailedDataset`: a Dataset together with its error message. -/
structure FailedDataset where
  name : String
  url : String
  error : String
deriving DecidableEq

/-- schema.py `InitDatasetsResponse`: the saved and failed dataset lists. -/
structure InitDatasetsResponse where
  saved_datasets : List Dataset
  failed_datasets : List FailedDataset
deriving DecidableEq

/-- database.py `init_engine`, as a transformation of the persisted entity
graph (a list of entities of abstract type α): with `drop_database_flag` the
database is dropped and recreated empty, otherwise the existing state is
kept (created empty if absent). -/
def init_engine {α : Type} (db : List α) (drop_database_flag : Bool) : List α :=
  if drop_database_flag then [] else db

/-- Whether the fallible per-dataset pipeline (fetch, save file, parse,
persist) succeeded. -/
def loadOk {α : Type} (r : Except String α) : Bool :=
  match r with
  | .ok _ => true
  | .error _ => false

/-- The `str(error)` recorded for a failed dataset ("" for a success). -/
def loadError {α : Type} (r : Except String α) : String :=
  match r with
  | .ok _ => ""
  | .error e => e

/-- The entities persisted by one successful dataset load ([] on failure). -/
def loadEntities {α : Type} (r : Except String (List α)) : List α :=
  match r with
  | .ok es => es
  | .error _ => []

/-- The per-dataset loop of services.py `init_datasets`: try the pipeline for
each configured dataset in order; on success append `{name, url}` to the
saved list and the dataset's entities to the graph, on any exception append
`{name, url, error}` to the failed list and continue with the next dataset. -/
def init_datasets_loop {α : Type} (load : Dataset → Except String (List α)) :
    List Dataset → List α → List Dataset × List FailedDataset × List α
  | [], db => ([], [], db)
  | d :: rest, db =>
      match load d with
      | .ok entities =>
          let r := init_datasets_loop load rest (db ++ entities)
          (⟨d.name, d.url⟩ :: r.1, r.2.1, r.2.2)
      | .error err =>
          let r := init_datasets_loop load rest db
          (r.1, ⟨d.name, d.url, err⟩ :: r.2.1, r.2.2)

/-- services.py `GlossaryController.init_datasets`: first
`self.engine = init_engine(drop_database_flag=True)` (unconditionally), then
the per-dataset loop.  `load` stands for the fallible pipeline
`get_ontology(url).load(reload=reload)` / `ontology.save` / `parse_dataset` /
`save_dataset`, which receives the reload flag; `prior_db` is the entity
graph persisted before the call. -/
def init_datasets {α : Type} (load : Bool → Dataset → Except String (List α))
    (datasets : List Dataset) (reload_flag : Bool) (prior_db : List α) :
    InitDatasetsResponse × List α :=
  let db := init_engine prior_db true
  let r := init_datasets_loop (load reload_flag) datasets db
  (⟨r.1, r.2.1⟩, r.2.2)

theorem init_datasets_loop_spec {α : Type} (load : Dataset → Except String (List α)) :
    ∀ (datasets : List Dataset) (db : List α),
      (init_datasets_loop load datasets db).1
        = (datasets.filter (fun d => loadOk (load d))).map (fun d => ⟨d.name, d.url⟩)
      ∧ (init_datasets_loop load datasets db).2.1
        = (datasets.filter (fun d => !loadOk (load d))).map
            (fun d => ⟨d.name, d.url, loadError (load d)⟩)
      ∧ (init_datasets_loop load datasets db).2.2
        = db ++ datasets.flatMap (fun d => loadEntities (load d)) := by
  intro datasets
  induction datasets with
  | nil => intro db; simp [init_datasets_loop]
  | cons d rest ih =>
      intro db
      cases hload : load d with
      | ok entities =>
          have h := ih (db ++ entities)
          simp [init_datasets_loop, hload, loadOk, loadEntities, h.1, h.2.1, h.2.2]
      | error err =>
          have h := ih db
          simp [init_datasets_loop, hload, loadOk, loadError, loadEntities,
            h.1, h.2.1, h.2.2]

/-- C1: `init_datasets` processes every configured dataset in order; a
dataset whose pipeline raises is recorded as `{name, url, error}` in the
failed list while processing continues, a successful one is recorded as
`{name, url}` in the saved list; every configured dataset lands in exactly
one of the two lists, so when exactly one of the N datasets fails the result
holds N-1 saved entries and 1 failed entry. -/
theorem init_datasets_isolated_failure {α : Type}
    (load : Bool → Dataset → Except String (List α)) (datasets : List Dataset)
    (reload_flag : Bool) (prior_db : List α) :
    (init_datasets load datasets reload_flag prior_db).1.saved_datasets
      = (datasets.filter (fun d => loadOk (load reload_flag d))).map
          (fun d => ⟨d.name, d.url⟩)
    ∧ (init_datasets load datasets reload_flag prior_db).1.failed_datasets
      = (datasets.filter (fun d => !loadOk (load reload_flag d))).map
          (fun d => ⟨d.name, d.url, loadError (load reload_flag d)⟩)
    ∧ (init_datasets load datasets reload_flag prior_db).1.saved_datasets.length
        + (init_datasets load datasets reload_flag prior_db).1.failed_datasets.length
      = datasets.length
    ∧ ((init_datasets load datasets reload_flag prior_db).1.failed_datasets.length = 1 →
        (init_datasets load datasets reload_flag prior_db).1.saved_datasets.length
          = datasets.length - 1) := by
  have h := init_datasets_loop_spec (load reload_flag) datasets
    (init_engine prior_db true)
  have hsaved : (init_datasets load datasets reload_flag prior_db).1.saved_datasets
      = (datasets.filter (fun d => loadOk (load reload_flag d))).map
          (fun d => ⟨d.name, d.url⟩) := h.1
  have hfailed : (init_datasets load datasets reload_flag prior_db).1.failed_datasets
      = (datasets.filter (fun d => !loadOk (load reload_flag d))).map
          (fun d => ⟨d.name, d.url, loadError (load reload_flag d)⟩) := h.2.1
  have hlen : (init_datasets load datasets reload_flag prior_db).1.saved_datasets.length
      + (init_datasets load datasets reload_flag prior_db).1.failed_datasets.length
      = datasets.length := by
    rw [hsaved, hfailed, List.length_map, List.length_map]
    exact (List.length_eq_length_filter_add (fun d => loadOk (load reload_flag d))).symm
  refine ⟨hsaved, hfailed, hlen, ?_⟩
  intro hone
  omega

/-- Witness for C1: of two configured datasets where exactly the second
fails, the saved list holds exactly the first and the failed list exactly the
second with its error message. -/
theorem init_datasets_isolated_failure_witness :
    (init_datasets
        (fun _ d => if d.name = "good.rdf"
          then (Except.ok ["entity1"] : Except String (List String))
          else Except.error "No such file or directory")
        [⟨"good.rdf", "http://ok"⟩, ⟨"bad.rdf", "http://down"⟩] false []).1.saved_datasets
      = [⟨"good.rdf", "http://ok"⟩]
    ∧ (init_datasets
        (fun _ d => if d.name = "good.rdf"
          then (Except.ok ["entity1"] : Except String (List String))
          else Except.error "No such file or directory")
        [⟨"good.rdf", "http://ok"⟩, ⟨"bad.rdf", "http://down"⟩] false []).1.failed_datasets
      = [⟨"bad.rdf", "http://down", "No such file or directory"⟩]
    ∧ (init_datasets
        (fun _ d => if d.name = "good.rdf"
          then (Except.ok ["entity1"] : Except String (List String))
          else Except.error "No such file or directory")
        [⟨"good.rdf", "http://ok"⟩, ⟨"bad.rdf", "http://down"⟩] false []).1.saved_datasets.length
      = 2 - 1 := by
  have h := init_datasets_isolated_failure
    (fun _ d => if d.name = "good.rdf"
      then (Except.ok ["entity1"] : Except String (List String))
      else Except.error "No such file or directory")
    [⟨"good.rdf", "http://ok"⟩, ⟨"bad.rdf", "http://down"⟩] false []
  exact ⟨h.1.trans (by decide), h.2.1.trans (by decide), h.2.2.2 (by decide)⟩

/-- Counterexample for C2: a call of `init_datasets` with reload = false DOES
destroy previously persisted entities, because `init_engine` is invoked with
`drop_database_flag=True` unconditionally: with one configured dataset whose
pipeline fails, an entity persisted before the call is gone afterwards. -/
theorem init_datasets_drops_db_despite_no_reload :
    ("entity0" ∈ (["entity0"] : List String))
    ∧ (init_datasets
        (fun _ _ => (Except.error "connection refused" : Except String (List String)))
        [⟨"ESTAT-CN2024.rdf", "http://example.org/cn2024"⟩] false
        ["entity0"]).2 = []
    ∧ "entity0" ∉ (init_datasets
        (fun _ _ => (Except.error "connection refused" : Except String (List String)))
        [⟨"ESTAT-CN2024.rdf", "http://example.org/cn2024"⟩] false
        ["entity0"]).2 := by
  refine ⟨by decide, rfl, ?_⟩
  intro hmem
  rw [show (init_datasets
      (fun _ _ => (Except.error "connection refused" : Except String (List String)))
      [⟨"ESTAT-CN2024.rdf", "http://example.org/cn2024"⟩] false
      ["entity0"]).2 = [] from rfl] at hmem
  simp at hmem

/-- C2 (amended): the drop-and-recreate of the entire entity graph in
`init_datasets` is unconditional, not tied to the reload flag: the resulting
graph never depends on the previously persisted entities (they survive only
if re-added by this call) and equals exactly the concatenation of the
entities of the datasets that loaded successfully during this call; the
reload flag is only passed through to the fetching pipeline. -/
theorem init_datasets_full_rebuild_every_call {α : Type}
    (load : Bool → Dataset → Except String (List α)) (datasets : List Dataset)
    (reload_flag : Bool) (db db' : List α) :
    (init_datasets load datasets reload_flag db).2
      = (init_datasets load datasets reload_flag db').2
    ∧ (init_datasets load datasets reload_flag db).2
      = datasets.flatMap (fun d => loadEntities (load reload_flag d)) := by
  have h := init_datasets_loop_spec (load reload_flag) datasets
    (init_engine db true)
  have h' := init_datasets_loop_spec (load reload_flag) datasets
    (init_engine db' true)
  have hdb : (init_datasets load datasets reload_flag db).2
      = datasets.flatMap (fun d => loadEntities (load reload_flag d)) := by
    have := h.2.2
    simpa [init_datasets, init_engine] using this
  have hdb' : (init_datasets load datasets reload_flag db').2
      = datasets.flatMap (fun d => loadEntities (load reload_flag d)) := by
    have := h'.2.2
    simpa [init_datasets, init_engine] using this
  exact ⟨hdb.trans hdb'.symm, hdb⟩

/-- exceptions.py `EntityNotFound` message:
`f"{entity_name} {entity_iri} not found."`. -/
def entityNotFoundDetail (entity_name entity_iri : String) : String :=
  entity_name ++ " " ++ entity_iri ++ " not found."

/-- exceptions.py typed not-found exceptions (all HTTP 404). -/
inductive GlossaryException where
  | conceptSchemeNotFound (iri : String)
  | conceptNotFound (iri : String)
  | collectionNotFound (iri : String)
deriving DecidableEq

/-- The detail message of each typed not-found exception, built by the
corresponding `__init__` in exceptions.py. -/
def GlossaryException.detail : GlossaryException → String
  | .conceptSchemeNotFound iri => entityNotFoundDetail "Concept scheme" iri
  | .conceptNotFound iri => entityNotFoundDetail "Concept" iri
  | .collectionNotFound iri => entityNotFoundDetail "Collection" iri

/-- schema.py `EntityResponse` (the Python field `notation` is embedded as
`notationStr`). -/
structure EntityResponse where
  iri : String
  notationStr : String
  prefLabel : String
deriving DecidableEq

/-- schema.py `ConceptResponse`. -/
structure ConceptResponse where
  iri : String
  identifier : String
  notationStr : String
  prefLabel : String
  altLabels : List String
  scopeNote : String
deriving DecidableEq

/-- schema.py `RelationResponse`. -/
structure RelationResponse where
  type : String
  source_concept_iri : String
  target_concept_iri : String
deriving DecidableEq

/-- schema.py `FullConceptResponse`: a ConceptResponse plus the owning scheme
IRIs and the concept's relations. -/
structure FullConceptResponse where
  iri : String
  identifier : String
  notationStr : String
  prefLabel : String
  altLabels : List String
  scopeNote : String
  concept_schemes : List String
  relations : List RelationResponse
deriving DecidableEq

/-- schema.py `FullConceptSchemeResponse`. -/
structure FullConceptSchemeResponse where
  iri : String
  notationStr : String
  scopeNote : String
  prefLabel : String
  collections : List EntityResponse
  concepts : List ConceptResponse
deriving DecidableEq

/-- schema.py `CollectionResponse`. -/
structure CollectionResponse where
  iri : String
  notationStr : String
  prefLabel : String
  collections : List EntityResponse
  concepts : List ConceptResponse
deriving DecidableEq

/-- model.py `Member.to_dict`: iri, notation and the prefLabel in `lang`. -/
def Member.to_dict (m : Member) (lang : String) : EntityResponse :=
  { iri := m.iri
    notationStr := m.notationStr
    prefLabel := Base.get_in_language m.prefLabels lang }

/-- model.py `Concept.to_dict`: iri, identifier, notation, and the localized
prefLabel, altLabels and scopeNote. -/
def Concept.to_dict (c : Concept) (lang : String) : ConceptResponse :=
  { iri := c.iri
    identifier := c.identifier
    notationStr := c.notationStr
    prefLabel := Base.get_in_language c.prefLabels lang
    altLabels := Base.get_in_language_list c.altLabels lang
    scopeNote := Base.get_in_language c.scopeNotes lang }

/-- model.py `SemanticRelation.to_dict`. -/
def SemanticRelation.to_dict (r : SemanticRelation) : RelationResponse :=
  { type := r.type.value
    source_concept_iri := r.source_concept_iri
    target_concept_iri := r.target_concept_iri }

/-- The persisted entity graph read by the query service: the rows of the
tables declared in model.py. -/
structure GlossaryDB where
  concept_schemes : List ConceptScheme
  members : List Member
  concepts : List Concept
  collections : List Collection
  in_scheme : List (String × String)
  relations : List SemanticRelation

/-- Modelled from the spec: database.py's final-snapshot `get_concept`
(absent from the sources, which carry an older database.py) per spec 4.4,
`getConcept(iri) -> Concept?` with its owning ConceptSchemes eagerly loaded;
SQLAlchemy's `.one()` raising NoResultFound is the `none` case. -/
def db_get_concept (db : GlossaryDB) (iri : String) : Option Concept :=
  db.concepts.find? (fun concept => concept.iri == iri)

/-- Modelled from the spec: database.py's final-snapshot `get_concept_scheme`
per spec 4.4, `getConceptScheme(iri) -> ConceptScheme?` with its Members
eagerly loaded through the in_scheme association rows. -/
def db_get_concept_scheme (db : GlossaryDB) (iri : String) :
    Option (ConceptScheme × List Member) :=
  (db.concept_schemes.find? (fun scheme => scheme.iri == iri)).map
    (fun scheme =>
      (scheme, db.members.filter (fun m => db.in_scheme.contains (iri, m.iri))))

/-- Modelled from the spec: database.py's final-snapshot `get_collection` per
spec 4.4, `getCollection(iri) -> Collection?` with its resolved member list
eagerly loaded. -/
def db_get_collection (db : GlossaryDB) (iri : String) : Option Collection :=
  db.collections.find? (fun collection => collection.iri == iri)

/-- Modelled from the spec: database.py's final-snapshot `get_relations` per
spec 4.4, all edges where the concept is source OR target. -/
def db_get_relations (db : GlossaryDB) (iri : String) : List SemanticRelation :=
  db.relations.filter
    (fun r => r.source_concept_iri == iri || r.target_concept_iri == iri)

/-- services.py `GlossaryController.get_scheme_members`: the members of the
given member type. -/
def get_scheme_members (members : List Member) (member_type : MemberType) : List Member :=
  members.filter (fun member => member.member_type == member_type)

/-- Modelled from the spec: polymorphic rehydration of a concept-typed Member
row into its full Concept row (spec 4.4: members are eagerly loaded and
polymorphically typed); foreign-key integrity guarantees the row exists, the
default branch covers the unreachable missing case. -/
def conceptResponseOfMember (db : GlossaryDB) (m : Member) (lang : String) : ConceptResponse :=
  match db_get_concept db m.iri with
  | some concept => Concept.to_dict concept lang
  | none =>
      { iri := m.iri
        identifier := ""
        notationStr := m.notationStr
        prefLabel := Base.get_in_language m.prefLabels lang
        altLabels := []
        scopeNote := "" }

/-- services.py `GlossaryController.get_concept_scheme`: a NoResultFound from
the database lookup is re-raised as `ConceptSchemeNotFoundException`; on
success the scheme's members are split into collections and concepts. -/
def get_concept_scheme (db : GlossaryDB) (concept_scheme_iri : String)
    (lang : String := "en") : Except GlossaryException FullConceptSchemeResponse :=
  match db_get_concept_scheme db concept_scheme_iri with
  | none => .error (.conceptSchemeNotFound concept_scheme_iri)
  | some (scheme, members) =>
      .ok { iri := scheme.iri
            notationStr := scheme.notationStr
            scopeNote := scheme.scopeNote
            prefLabel := Base.get_in_language scheme.prefLabels lang
            collections := (get_scheme_members members .collection).map
              (fun m => Member.to_dict m lang)
            concepts := (get_scheme_members members .concept).map
              (fun m => conceptResponseOfMember db m lang) }

/-- services.py `GlossaryController.get_collection`: a NoResultFound from the
database lookup is re-raised as `CollectionNotFoundException`. -/
def get_collection (db : GlossaryDB) (collection_iri : String)
    (lang : String := "en") : Except GlossaryException CollectionResponse :=
  match db_get_collection db collection_iri with
  | none => .error (.collectionNotFound collection_iri)
  | some collection =>
      .ok { iri := collection.iri
            notationStr := collection.notationStr
            prefLabel := Base.get_in_language collection.prefLabels lang
            collections := (get_scheme_members collection.members .collection).map
              (fun m => Member.to_dict m lang)
            concepts := (get_scheme_members collection.members .concept).map
              (fun m => conceptResponseOfMember db m lang) }

/-- services.py `GlossaryController.get_concept`: a NoResultFound from the
database lookup is re-raised as `ConceptNotFoundException`; on success the
concept's dict plus its scheme IRIs and relations. -/
def get_concept (db : GlossaryDB) (concept_iri : String)
    (lang : String := "en") : Except GlossaryException FullConceptResponse :=
  match db_get_concept db concept_iri with
  | none => .error (.conceptNotFound concept_iri)
  | some concept =>
      .ok { iri := concept.iri
            identifier := concept.identifier
            notationStr := concept.notationStr
            prefLabel := Base.get_in_language concept.prefLabels lang
            altLabels := Base.get_in_language_list concept.altLabels lang
            scopeNote := Base.get_in_language concept.scopeNotes lang
            concept_schemes := concept.concept_schemes.map (fun scheme => scheme.iri)
            relations := (db_get_relations db concept_iri).map SemanticRelation.to_dict }

/-- Python's `in` substring test: the term occurs as a contiguous substring
of s. -/
def strContains (s term : String) : Bool :=
  decide (term.data <:+: s.data)

/-- Modelled from the spec: database.py's final-snapshot `search_database`
(absent from the sources) per spec 4.4 `searchConcepts(term, lang)`:
substring match against the prefLabel and any altLabel in the given language,
with English fallback per the label-dictionary contract, scanning all
concepts. -/
def db_search_database (concepts : List Concept) (search_term : String)
    (lang : String) : List Concept :=
  concepts.filter (fun concept =>
    strContains (Base.get_in_language concept.prefLabels lang) search_term
    || (Base.get_in_language_list concept.altLabels lang).any
        (fun alt => strContains alt search_term))

/-- services.py `GlossaryController.search_database`: the matching concepts,
each shaped as a ConceptResponse in the requested language. -/
def search_database (db : GlossaryDB) (search_term : String)
    (lang : String := "en") : List ConceptResponse :=
  (db_search_database db.concepts search_term lang).map
    (fun concept => Concept.to_dict concept lang)

/-- C7: `get_concept` on an IRI with no Concept row raises the typed
`ConceptNotFoundException` whose detail names the entity kind and the
requested IRI as "Concept iri not found.", and never returns a successful
result; the by-IRI lookups `get_concept_scheme` and `get_collection` raise
their corresponding typed not-found exceptions. -/
theorem get_concept_not_found_typed (db : GlossaryDB) (iri lang : String) :
    ((∀ c ∈ db.concepts, c.iri ≠ iri) →
      get_concept db iri lang = .error (.conceptNotFound iri)
      ∧ ∀ resp, get_concept db iri lang ≠ .ok resp)
    ∧ (GlossaryException.conceptNotFound iri).detail = "Concept " ++ iri ++ " not found."
    ∧ ((∀ s ∈ db.concept_schemes, s.iri ≠ iri) →
      get_concept_scheme db iri lang = .error (.conceptSchemeNotFound iri))
    ∧ ((∀ c ∈ db.collections, c.iri ≠ iri) →
      get_collection db iri lang = .error (.collectionNotFound iri)) := by
  refine ⟨?_, rfl, ?_, ?_⟩
  · intro hnorow
    have hnone : db_get_concept db iri = none := by
      apply List.find?_eq_none.mpr
      intro c hc
      simp [hnorow c hc]
    constructor
    · simp [get_concept, hnone]
    · intro resp
      simp [get_concept, hnone]
  · intro hnorow
    have hnone : db_get_concept_scheme db iri = none := by
      have hfind : db.concept_schemes.find? (fun scheme => scheme.iri == iri) = none := by
        apply List.find?_eq_none.mpr
        intro s hs
        simp [hnorow s hs]
      simp [db_get_concept_scheme, hfind]
    simp [get_concept_scheme, hnone]
  · intro hnorow
    have hnone : db_get_collection db iri = none := by
      apply List.find?_eq_none.mpr
      intro c hc
      simp [hnorow c hc]
    simp [get_collection, hnone]

/-- Witness for C7: looking up "unknown-iri" in an empty entity graph yields
the three typed not-found errors with the documented message. -/
theorem get_concept_not_found_typed_witness :
    get_concept ⟨[], [], [], [], [], []⟩ "unknown-iri" "en"
      = .error (.conceptNotFound "unknown-iri")
    ∧ (GlossaryException.conceptNotFound "unknown-iri").detail
      = "Concept unknown-iri not found."
    ∧ get_concept_scheme ⟨[], [], [], [], [], []⟩ "unknown-iri" "en"
      = .error (.conceptSchemeNotFound "unknown-iri")
    ∧ get_collection ⟨[], [], [], [], [], []⟩ "unknown-iri" "en"
      = .error (.collectionNotFound "unknown-iri") := by
  have h := get_concept_not_found_typed ⟨[], [], [], [], [], []⟩ "unknown-iri" "en"
  exact ⟨(h.1 (by simp)).1, h.2.1.trans (by rfl), h.2.2.1 (by simp), h.2.2.2 (by simp)⟩

/-- C8: `search_database` returns exactly those concepts whose prefLabel or
one of whose altLabels in the requested language, falling back to the English
labels when the concept has no entry for the requested language, contains the
term as a substring; in particular a concept without French labels whose
English altLabel contains the term is returned for language "fr", and its
response appears in the service-level result. -/
theorem search_database_matches_with_english_fallback (concepts : List Concept)
    (db : GlossaryDB) (term lang : String) :
    (∀ c, c ∈ db_search_database concepts term lang ↔
        c ∈ concepts
        ∧ (strContains (Base.get_in_language c.prefLabels lang) term
            || (Base.get_in_language_list c.altLabels lang).any
                (fun alt => strContains alt term)) = true)
    ∧ (∀ c ∈ concepts, dictGet c.prefLabels (some "fr") = none →
        dictGet c.altLabels (some "fr") = none →
        ∀ alt ∈ Base.get_in_language_list c.altLabels "en", strContains alt term = true →
          c ∈ db_search_database concepts term "fr")
    ∧ (∀ c ∈ db_search_database db.concepts term lang,
        Concept.to_dict c lang ∈ search_database db term lang) := by
  refine ⟨?_, ?_, ?_⟩
  · intro c
    simp [db_search_database, List.mem_filter]
  · intro c hc hpref halt alt haltmem hcontains
    have hfall : Base.get_in_language_list c.altLabels "fr"
        = Base.get_in_language_list c.altLabels "en" := by
      cases hen : dictGet c.altLabels (some "en") <;>
        simp [Base.get_in_language_list, halt, hen]
    apply List.mem_filter.mpr
    refine ⟨hc, ?_⟩
    have hany : (Base.get_in_language_list c.altLabels "fr").any
        (fun alt => strContains alt term) = true :=
      List.any_eq_true.mpr ⟨alt, by rw [hfall]; exact haltmem, hcontains⟩
    simp [hany]
  · intro c hc
    exact List.mem_map_of_mem _ hc

/-- Witness for C8: a concept with only English labels whose altLabel
contains "H2O" is found by a French search for "H2O". -/
theorem search_database_matches_with_english_fallback_witness :
    (⟨"http://water", "W1", "w", [(some "en", "Water")],
        [(some "en", ["H2O compound"])], [], []⟩ : Concept)
      ∈ db_search_database
        [⟨"http://water", "W1", "w", [(some "en", "Water")],
          [(some "en", ["H2O compound"])], [], []⟩] "H2O" "fr" := by
  have h := search_database_matches_with_english_fallback
    [⟨"http://water", "W1", "w", [(some "en", "Water")],
      [(some "en", ["H2O compound"])], [], []⟩]
    ⟨[], [], [], [], [], []⟩ "H2O" "fr"
  exact h.2.1
    ⟨"http://water", "W1", "w", [(some "en", "Water")],
      [(some "en", ["H2O compound"])], [], []⟩
    (by simp) (by decide) (by decide) "H2O compound" (by decide) (by decide)

end DDSGlossary
